import Mathlib

/-!
Verification development for `checksum_boto.py`: a tool that walks an
S3-compatible bucket, computes an MD5 digest for each object by streaming its
body in 1 MiB chunks, and stores the digest as a sibling `<key>.md5` object,
skipping keys whose sibling already exists.

The Python source is shallowly embedded below:

* `md5Ref`, `Md5Ctx`, `md5Update`, `md5Final` — the `hashlib.md5` collaborator
  (RFC 1321), both as a one-shot reference and as the incremental
  update/finalize API the script uses.
* `calc_hash_md5` — the script's streaming hash loop (reads until an empty
  chunk, feeding each chunk to the running hash).
* `retryGo`, `rate_limited_get`, `rate_limited_put` — the tenacity-decorated
  GET/PUT wrappers: `time.sleep(1/GET_LIMIT)` then the transport call, retried
  on `botocore ClientError` up to 5 attempts; when the attempt budget is
  exhausted, a `tenacity.RetryError` wrapping the last attempt is raised
  (`reraise` is not set on the decorators).
* `process_file` — the per-key task: HEAD the `.md5` sibling, skip if present,
  otherwise GET + hash + PUT, with the whole body wrapped in a
  catch-everything handler.
* `list_files` — the enumerator with its lowercase suffix filter against
  `SKIP_EXTENSIONS`.
* `runOnce` — one sequential sweep of the tool over a modelled bucket, used to
  study behaviour across consecutive runs.
-/

/-! ## MD5 (RFC 1321), the `hashlib.md5` collaborator -/

/-- `2^32`, the word modulus for MD5 arithmetic. -/
def M32 : Nat := 4294967296

/-- The four MD5 working registers. -/
structure Regs where
  a : Nat
  b : Nat
  c : Nat
  d : Nat
deriving DecidableEq

/-- MD5 initial register values. -/
def initRegs : Regs := ⟨0x67452301, 0xefcdab89, 0x98badcfe, 0x10325476⟩

/-- MD5 round constants `K[i] = floor(2^32 * abs(sin(i+1)))`. -/
def kTable : List Nat :=
  [0xd76aa478, 0xe8c7b756, 0x242070db, 0xc1bdceee,
   0xf57c0faf, 0x4787c62a, 0xa8304613, 0xfd469501,
   0x698098d8, 0x8b44f7af, 0xffff5bb1, 0x895cd7be,
   0x6b901122, 0xfd987193, 0xa679438e, 0x49b40821,
   0xf61e2562, 0xc040b340, 0x265e5a51, 0xe9b6c7aa,
   0xd62f105d, 0x02441453, 0xd8a1e681, 0xe7d3fbc8,
   0x21e1cde6, 0xc33707d6, 0xf4d50d87, 0x455a14ed,
   0xa9e3e905, 0xfcefa3f8, 0x676f02d9, 0x8d2a4c8a,
   0xfffa3942, 0x8771f681, 0x6d9d6122, 0xfde5380c,
   0xa4beea44, 0x4bdecfa9, 0xf6bb4b60, 0xbebfbc70,
   0x289b7ec6, 0xeaa127fa, 0xd4ef3085, 0x04881d05,
   0xd9d4d039, 0xe6db99e5, 0x1fa27cf8, 0xc4ac5665,
   0xf4292244, 0x432aff97, 0xab9423a7, 0xfc93a039,
   0x655b59c3, 0x8f0ccc92, 0xffeff47d, 0x85845dd1,
   0x6fa87e4f, 0xfe2ce6e0, 0xa3014314, 0x4e0811a1,
   0xf7537e82, 0xbd3af235, 0x2ad7d2bb, 0xeb86d391]

/-- MD5 per-round left-rotation amounts. -/
def sTable : List Nat :=
  [7, 12, 17, 22, 7, 12, 17, 22, 7, 12, 17, 22, 7, 12, 17, 22,
   5, 9, 14, 20, 5, 9, 14, 20, 5, 9, 14, 20, 5, 9, 14, 20,
   4, 11, 16, 23, 4, 11, 16, 23, 4, 11, 16, 23, 4, 11, 16, 23,
   6, 10, 15, 21, 6, 10, 15, 21, 6, 10, 15, 21, 6, 10, 15, 21]

/-- 32-bit left rotation (arguments assumed `< 2^32`, `n ≤ 32`). -/
def rotl32 (x n : Nat) : Nat := (x % 2 ^ (32 - n)) * 2 ^ n + x / 2 ^ (32 - n)

/-- 32-bit bitwise complement for a value `< 2^32`. -/
def not32 (x : Nat) : Nat := 4294967295 - x

/-- Little-endian word `g` of a 64-byte block. -/
def blockWord (block : List Nat) (g : Nat) : Nat :=
  block.getD (4 * g) 0 % 256 + 256 * (block.getD (4 * g + 1) 0 % 256) +
    65536 * (block.getD (4 * g + 2) 0 % 256) +
    16777216 * (block.getD (4 * g + 3) 0 % 256)

/-- The MD5 nonlinear function for round `i`. -/
def md5F (i b c d : Nat) : Nat :=
  if i < 16 then Nat.lor (Nat.land b c) (Nat.land (not32 b) d)
  else if i < 32 then Nat.lor (Nat.land d b) (Nat.land (not32 d) c)
  else if i < 48 then Nat.xor (Nat.xor b c) d
  else Nat.xor c (Nat.lor b (not32 d))

/-- The message-word index used in round `i`. -/
def md5G (i : Nat) : Nat :=
  if i < 16 then i
  else if i < 32 then (5 * i + 1) % 16
  else if i < 48 then (3 * i + 5) % 16
  else 7 * i % 16

/-- One MD5 round: rotate the registers, mixing in word `md5G i` of `block`. -/
def md5Round (block : List Nat) (r : Regs) (i : Nat) : Regs :=
  let f := (md5F i r.b r.c r.d + r.a + kTable.getD i 0 + blockWord block (md5G i)) % M32
  ⟨r.d, (r.b + rotl32 f (sTable.getD i 0)) % M32, r.b, r.c⟩

/-- Process one 64-byte block: 64 rounds, then add back the incoming registers. -/
def processBlock (r : Regs) (block : List Nat) : Regs :=
  let r2 := (List.range 64).foldl (md5Round block) r
  ⟨(r.a + r2.a) % M32, (r.b + r2.b) % M32, (r.c + r2.c) % M32, (r.d + r2.d) % M32⟩

/-- The four little-endian bytes of a 32-bit word. -/
def le4 (w : Nat) : List Nat := [w % 256, w / 256 % 256, w / 65536 % 256, w / 16777216 % 256]

/-- The eight little-endian bytes of a 64-bit word. -/
def le8 (w : Nat) : List Nat := le4 (w % M32) ++ le4 (w / M32 % M32)

/-- MD5 padding for a message of `len` bytes: `0x80`, zeros to 56 mod 64, then
the bit length as a little-endian 64-bit word. -/
def padBytes (len : Nat) : List Nat :=
  128 :: List.replicate ((119 - len % 64) % 64) 0 ++ le8 (len * 8 % 2 ^ 64)

/-- Fuel-driven chunk splitter (fuel `≥` list length suffices when `0 < k`). -/
def chunksF (k : Nat) : Nat → List α → List (List α)
  | 0, _ => []
  | _, [] => []
  | f + 1, l => l.take k :: chunksF k f (l.drop k)

/-- Split a list into consecutive chunks of size `k` (last chunk may be short). -/
def chunks (k : Nat) (l : List α) : List (List α) := chunksF k l.length l

/-- Lowercase hexadecimal digit character for `n < 16`: `0`–`9` then `a`–`f`. -/
def hexDigit (n : Nat) : Char :=
  if n < 10 then Char.ofNat (48 + n) else Char.ofNat (87 + n)

/-- Two lowercase hex characters for one byte. -/
def hexByte (b : Nat) : List Char := [hexDigit (b / 16 % 16), hexDigit (b % 16)]

/-- The 16 digest bytes of a register state, little-endian per word. -/
def digestBytes (r : Regs) : List Nat := le4 r.a ++ le4 r.b ++ le4 r.c ++ le4 r.d

/-- Render a register state as the usual 32-character lowercase hex digest. -/
def md5HexStr (r : Regs) : String := String.mk ((digestBytes r).flatMap hexByte)

/-- One-shot reference MD5: pad the whole message and process every block. -/
def md5Ref (bs : List Nat) : String :=
  md5HexStr ((chunks 64 (bs ++ padBytes bs.length)).foldl processBlock initRegs)

/-- Incremental MD5 context, as maintained by `hashlib.md5`: processed
registers, the `< 64` pending buffer bytes, and the total byte count. -/
structure Md5Ctx where
  regs : Regs
  buf : List Nat
  len : Nat
deriving DecidableEq

/-- Fresh `hashlib.md5()` context. -/
def md5Init : Md5Ctx := ⟨initRegs, [], 0⟩

/-- Feed one byte to the context, processing a block when the buffer fills. -/
def md5UpdByte (s : Md5Ctx) (b : Nat) : Md5Ctx :=
  let nb := s.buf ++ [b]
  if nb.length = 64 then ⟨processBlock s.regs nb, [], s.len + 1⟩
  else ⟨s.regs, nb, s.len + 1⟩

/-- `md5.update(bs)`: feed a byte string to the context. -/
def md5Update (s : Md5Ctx) (bs : List Nat) : Md5Ctx := bs.foldl md5UpdByte s

/-- `md5.hexdigest()`: pad the pending buffer and render the digest. -/
def md5Final (s : Md5Ctx) : String :=
  md5HexStr ((chunks 64 (s.buf ++ padBytes s.len)).foldl processBlock s.regs)

/-! ## The streaming hash loop `calc_hash_md5`

A stream is modelled by the list of byte strings its successive
`read(1024 * 1024)` calls return; once the list is exhausted the stream keeps
returning the empty byte string.  The source loop reads until an empty chunk
comes back, feeding each chunk to the running hash; `file_size` only drives the
`tqdm` progress bar and has no effect on the digest. -/

/-- The bytes a stream actually delivers: every read result before the first
empty one, concatenated. -/
def streamContent (reads : List (List Nat)) : List Nat :=
  (reads.takeWhile fun c => !c.isEmpty).flatten

/-- `calc_hash_md5(file_stream, file_size)`: loop reading chunks until an empty
read, feed each chunk to the context, then return the hex digest.  The
`fileSize` argument is consumed only by the progress bar. -/
def calc_hash_md5 (reads : List (List Nat)) (fileSize : Nat) : String :=
  let _pbar := fileSize
  md5Final ((reads.takeWhile fun c => !c.isEmpty).foldl md5Update md5Init)

/-! ## The tenacity-wrapped, rate-limited store calls

Errors are modelled by `PyExc`: a botocore `ClientError` carrying its response
error code, or any other exception.  The `@retry` decorator on
`rate_limited_get` / `rate_limited_put` retries on `ClientError` only, for at
most 5 attempts (`stop_after_attempt(5)`), and each attempt first executes
`time.sleep(1 / GET_LIMIT)` and then the transport call.  A transport is
modelled by the result each successive attempt would produce.  The observable
actions are recorded as a trace of events. -/

/-- A Python exception: a botocore `ClientError` with its error code, a
`tenacity.RetryError` wrapping the exception of the last retry attempt, or
some other exception identified by name. -/
inductive PyExc where
  | clientError (code : String) : PyExc
  | otherExc (name : String) : PyExc
  | retryError (last : PyExc) : PyExc
deriving DecidableEq

instance {ε α : Type} [DecidableEq ε] [DecidableEq α] : DecidableEq (Except ε α) :=
  fun x y =>
    match x, y with
    | .ok a, .ok b =>
      if h : a = b then .isTrue (by rw [h]) else .isFalse (by intro hc; cases hc; exact h rfl)
    | .error a, .error b =>
      if h : a = b then .isTrue (by rw [h]) else .isFalse (by intro hc; cases hc; exact h rfl)
    | .ok _, .error _ => .isFalse (by intro hc; cases hc)
    | .error _, .ok _ => .isFalse (by intro hc; cases hc)

/-- `retry_if_exception_type(botocore.exceptions.ClientError)`. -/
def isClientError : PyExc → Bool
  | .clientError _ => true
  | _ => false

/-- Observable store/limiter actions of one task. -/
inductive Ev where
  | sleep : Ev
  | headCall (key : String) : Ev
  | getCall (key : String) : Ev
  | putCall (key : String) (body : String) : Ev
deriving DecidableEq

/-- The result of a successful `get_object`: the body stream (successive read
results) and the `ContentLength`. -/
abbrev GetResp : Type := List (List Nat) × Nat

/-- The tenacity retry loop with `stop_after_attempt` fuel: run attempt `i`
(emitting events `mk i` first, i.e. the rate-limit sleep and the transport
call) and return on success; on a `ClientError` with attempts remaining,
retry; on a `ClientError` once the attempt budget is exhausted, raise
`tenacity.RetryError` wrapping the last attempt (the decorators do not set
`reraise`); on any other exception, re-raise it at once.  Returns the
outcome, the number of attempts performed, and the event trace. -/
def retryGo (mk : Nat → List Ev) (script : Nat → Except PyExc α) :
    Nat → Nat → Except PyExc α × Nat × List Ev
  | _, 0 => (.error (.retryError (.otherExc "no attempts")), 0, [])
  | i, f + 1 =>
    match script i with
    | .ok a => (.ok a, 1, mk i)
    | .error e =>
      if isClientError e && !(f == 0) then
        let r := retryGo mk script (i + 1) f
        (r.1, r.2.1 + 1, mk i ++ r.2.2)
      else if isClientError e then (.error (.retryError e), 1, mk i)
      else (.error e, 1, mk i)

/-- `rate_limited_get(s3_client, bucket, key)`: each attempt sleeps
`1 / GET_LIMIT` and then issues the GET; retried on `ClientError`, at most 5
attempts. -/
def rate_limited_get (key : String) (script : Nat → Except PyExc GetResp) :
    Except PyExc GetResp × Nat × List Ev :=
  retryGo (fun _ => [Ev.sleep, Ev.getCall key]) script 0 5

/-- `rate_limited_put(s3_client, bucket, key, body)`: each attempt sleeps
`1 / GET_LIMIT` and then issues the PUT; retried on `ClientError`, at most 5
attempts. -/
def rate_limited_put (key : String) (body : String)
    (script : Nat → Except PyExc Unit) : Except PyExc Unit × Nat × List Ev :=
  retryGo (fun _ => [Ev.sleep, Ev.putCall key body]) script 0 5

/-! ## The per-key task `process_file` -/

/-- The store's behaviour towards one task: the result of the HEAD on the
`.md5` sibling, and per-attempt results for the GET and the PUT. -/
structure Behavior where
  headRes : Except PyExc Unit
  getScript : Nat → Except PyExc GetResp
  putScript : Nat → Except PyExc Unit

/-- Terminal state of one task. -/
inductive Outcome where
  | skipped : Outcome
  | succeeded : Outcome
  | failed : Outcome
deriving DecidableEq

/-- The body of `process_file` up to (but not including) the outer
catch-everything handler.  An uncaught exception is returned as `.error`
together with the events performed before it was raised.

Control flow of the source: HEAD `key + ".md5"` directly (no rate limiting, no
retry decorator); on success log-and-skip; on a `ClientError` whose code is not
`'404'` re-raise; on 404 fall through to `rate_limited_get`, hash the stream
with `calc_hash_md5`, and `rate_limited_put` the record
`f"{md5_hash}  {object_key}\n"` under the sibling key. -/
def process_file_body (key : String) (b : Behavior) :
    Except (PyExc × List Ev) (Outcome × List Ev) :=
  let mdKey := key ++ ".md5"
  match b.headRes with
  | .ok _ => .ok (.skipped, [Ev.headCall mdKey])
  | .error (.otherExc n) => .error (.otherExc n, [Ev.headCall mdKey])
  | .error (.retryError l) => .error (.retryError l, [Ev.headCall mdKey])
  | .error (.clientError code) =>
    if code = "404" then
      let g := rate_limited_get key b.getScript
      match g.1 with
      | .error e1 => .error (e1, Ev.headCall mdKey :: g.2.2)
      | .ok resp =>
        let digest := calc_hash_md5 resp.1 resp.2
        let bdy := digest ++ "  " ++ key ++ "\n"
        let p := rate_limited_put mdKey bdy b.putScript
        match p.1 with
        | .ok _ => .ok (.succeeded, Ev.headCall mdKey :: (g.2.2 ++ p.2.2))
        | .error e2 => .error (e2, Ev.headCall mdKey :: (g.2.2 ++ p.2.2))
    else .error (.clientError code, [Ev.headCall mdKey])

/-- `process_file(object_key, s3_client)`: the body above wrapped in the outer
`except Exception` handler, which logs the failure and returns normally. -/
def process_file (key : String) (b : Behavior) : Outcome × List Ev :=
  match process_file_body key b with
  | .ok r => r
  | .error (_, tr) => (.failed, tr)

/-- The PUT attempts recorded in a trace, with their key and body. -/
def putsOf (tr : List Ev) : List (String × String) :=
  tr.filterMap fun e =>
    match e with
    | .putCall k bdy => some (k, bdy)
    | _ => none

/-- Is an event a HEAD transport call? -/
def isHeadEv : Ev → Bool
  | .headCall _ => true
  | _ => false

/-- Is an event a GET transport call? -/
def isGetEv : Ev → Bool
  | .getCall _ => true
  | _ => false

/-- Is an event a PUT transport call? -/
def isPutEv : Ev → Bool
  | .putCall _ _ => true
  | _ => false

/-- `n` repetitions of a rate-limit sleep followed by the transport event. -/
def sleepBlocks (n : Nat) (e : Ev) : List Ev :=
  match n with
  | 0 => []
  | n + 1 => Ev.sleep :: e :: sleepBlocks n e

/-! ## The enumerator `list_files` -/

/-- `SKIP_EXTENSIONS` from the source. -/
def SKIP_EXTENSIONS : List String := [".pfk", ".pek", ".cfa", ".mpegindex"]

/-- Python's `str.lower()` (character-wise, as used on ASCII object keys). -/
def pyLower (s : String) : String := String.mk (s.data.map Char.toLower)

/-- Python's `str.endswith(suffix)` on character lists. -/
def endsWithB (s suf : List Char) : Bool := s.drop (s.length - suf.length) == suf

/-- `key.lower().endswith(tuple(SKIP_EXTENSIONS))`. -/
def skipKey (k : String) : Bool :=
  SKIP_EXTENSIONS.any fun e => endsWithB (pyLower k).data e.data

/-- `list_files(prefix, s3_client)`: walk the listing pages in order and yield
every key whose lowercased form does not end in a skip extension.  `pages` is
the `Contents` key list of each page returned by the paginator. -/
def list_files (pages : List (List String)) : List String :=
  pages.flatten.filter fun k => !skipKey k

/-! ## Whole-bucket runs

A bucket is an association list from keys to byte contents, in listing order.
`storeBehavior` is how the real store answers one task: HEAD succeeds exactly
when the sibling exists, GET returns the object's content as a stream of 1 MiB
reads together with its length (404 when absent), and PUT succeeds.  `runOnce`
is one sequential sweep of `main` over the bucket, applying each task's PUT
attempts to the bucket and counting PUT calls. -/

/-- ASCII/UTF-8 bytes of a record body string. -/
def strBytes (s : String) : List Nat := s.data.map Char.toNat

/-- A modelled bucket: keys with their contents, in listing order. -/
abbrev Store : Type := List (String × List Nat)

/-- Does the bucket contain an object under `k`? -/
def containsKey (st : Store) (k : String) : Bool := st.any fun p => p.1 == k

/-- Content of the object under `k`, when present. -/
def lookupStore (st : Store) (k : String) : Option (List Nat) :=
  (st.find? fun p => p.1 == k).map Prod.snd

/-- `put_object`: overwrite an existing key or append a new one. -/
def putStore (st : Store) (k : String) (v : List Nat) : Store :=
  if containsKey st k then st.map fun p => if p.1 == k then (k, v) else p
  else st ++ [(k, v)]

/-- The body stream a GET on content `c` delivers: successive 1 MiB reads. -/
def mkReads (c : List Nat) : List (List Nat) := chunks 1048576 c

/-- How the store answers one task on `key` given bucket state `st`. -/
def storeBehavior (st : Store) (key : String) : Behavior where
  headRes :=
    if containsKey st (key ++ ".md5") then .ok () else .error (.clientError "404")
  getScript := fun _ =>
    match lookupStore st key with
    | some c => .ok (mkReads c, c.length)
    | none => .error (.clientError "404")
  putScript := fun _ => .ok ()

/-- Apply one trace event to the bucket (only PUTs change it). -/
def applyEv (st : Store) : Ev → Store
  | .putCall k bdy => putStore st k (strBytes bdy)
  | _ => st

/-- Apply a whole task trace to the bucket. -/
def applyTrace (st : Store) (tr : List Ev) : Store := tr.foldl applyEv st

/-- Number of PUT transport calls in a trace. -/
def countPuts (tr : List Ev) : Nat := tr.countP isPutEv

/-- The single listing page the paginator produces for the bucket. -/
def pagesOf (st : Store) : List (List String) := [st.map Prod.fst]

/-- One run of the tool: list the bucket, then process every yielded key in
order, threading the bucket state and counting PUT calls. -/
def runOnce (st : Store) : Store × Nat :=
  (list_files (pagesOf st)).foldl
    (fun acc k =>
      let r := process_file k (storeBehavior acc.1 k)
      (applyTrace acc.1 r.2, acc.2 + countPuts r.2))
    (st, 0)

/-- Does an `Except` result carry a botocore `ClientError`? -/
def resultIsClientError : Except PyExc α → Bool
  | .error (.clientError _) => true
  | _ => false

/-- Invariant tying an incremental context to the message fed so far: the
length is the byte count, the buffer holds the bytes past the last full block,
and the registers are the fold of all full blocks. -/
def goodCtx (msg : List Nat) (s : Md5Ctx) : Prop :=
  s.len = msg.length ∧ s.buf = msg.drop (64 * (msg.length / 64)) ∧
    s.regs = (chunks 64 (msg.take (64 * (msg.length / 64)))).foldl processBlock initRegs

/-! ## Concrete inputs used by witnesses and counterexamples -/

/-- A one-object bucket: `a.dat` holding the byte `0x61` (`"a"`). -/
def store0 : Store := [("a.dat", [97])]

/-- Behaviour for a fresh object: sibling HEAD yields 404, GET delivers one
read of `"a"` with length 1, PUT succeeds. -/
def c1WitBeh : Behavior :=
  ⟨.error (.clientError "404"), fun _ => .ok ([[97]], 1), fun _ => .ok ()⟩

/-- Behaviour whose sibling HEAD succeeds (checksum record already present). -/
def c2WitBeh : Behavior :=
  ⟨.ok (), fun _ => .error (.otherExc "unused"), fun _ => .error (.otherExc "unused")⟩

/-- Behaviour whose sibling HEAD succeeds, for trace inspection. -/
def c4SkipBeh : Behavior :=
  ⟨.ok (), fun _ => .error (.otherExc "unused"), fun _ => .error (.otherExc "unused")⟩

/-- Behaviour whose HEAD fails with a retryable-kind `ClientError` (HTTP 500). -/
def c4Head500Beh : Behavior :=
  ⟨.error (.clientError "500"), fun _ => .error (.otherExc "unused"),
    fun _ => .error (.otherExc "unused")⟩

/-- Behaviour exercising the full GET-retry-then-PUT path. -/
def c4WitBeh : Behavior :=
  ⟨.error (.clientError "404"), fun _ => .error (.clientError "500"), fun _ => .ok ()⟩

/-- A GET transport that always fails with not-found. -/
def g404script : Nat → Except PyExc GetResp := fun _ => .error (.clientError "404")

/-- A GET transport that always fails with a non-`ClientError` exception. -/
def c5NonCEScript : Nat → Except PyExc GetResp :=
  fun _ => .error (.otherExc "ConnectionError")

/-- A GET transport failing with throttling on attempts 0–3 and succeeding on
attempt 4. -/
def c7OkScript : Nat → Except PyExc GetResp :=
  fun i => if i < 4 then .error (.clientError "503") else .ok ([[1]], 1)

/-- A GET transport failing with throttling on every attempt. -/
def c7FailScript : Nat → Except PyExc GetResp :=
  fun _ => .error (.clientError "503")

/-- Behaviour whose HEAD raises a non-`ClientError` exception. -/
def c9WitBeh : Behavior :=
  ⟨.error (.otherExc "EndpointConnectionError"), fun _ => .ok ([], 0), fun _ => .ok ()⟩

set_option maxRecDepth 40000

/-! ## Chunk-splitting lemmas -/

theorem chunksF_nil (k f : Nat) : chunksF (α := α) k f [] = [] := by
  cases f <;> rfl

theorem chunksF_fuel (k : Nat) (hk : 0 < k) :
    ∀ (f1 : Nat) (l : List α) (f2 : Nat), l.length ≤ f1 → l.length ≤ f2 →
      chunksF k f1 l = chunksF k f2 l := by
  intro f1
  induction f1 with
  | zero =>
    intro l f2 h1 _
    have hl : l = [] := by
      cases l with
      | nil => rfl
      | cons a t => simp at h1
    subst hl
    rw [chunksF_nil, chunksF_nil]
  | succ f ih =>
    intro l f2 h1 h2
    cases l with
    | nil => rw [chunksF_nil, chunksF_nil]
    | cons a t =>
      cases f2 with
      | zero => simp at h2
      | succ f2' =>
        simp only [chunksF]
        congr 1
        apply ih
        · rw [List.length_drop]
          simp only [List.length_cons] at h1 ⊢
          omega
        · rw [List.length_drop]
          simp only [List.length_cons] at h2 ⊢
          omega

theorem chunks_cons_of_ne (k : Nat) (hk : 0 < k) (l : List α) (h : l ≠ []) :
    chunks k l = l.take k :: chunks k (l.drop k) := by
  cases l with
  | nil => exact absurd rfl h
  | cons a t =>
    show chunksF k (t.length + 1) (a :: t) = _
    simp only [chunksF]
    congr 1
    apply chunksF_fuel k hk
    · rw [List.length_drop]
      simp only [List.length_cons]
      omega
    · exact le_refl _

theorem chunks_append_mul (q : Nat) : ∀ (a b : List α), a.length = 64 * q →
    chunks 64 (a ++ b) = chunks 64 a ++ chunks 64 b := by
  induction q with
  | zero =>
    intro a b ha
    have hnil : a = [] := List.eq_nil_of_length_eq_zero (by omega)
    subst hnil
    simp [chunks, chunksF_nil]
  | succ q ih =>
    intro a b ha
    have hane : a ≠ [] := by
      intro hx
      subst hx
      simp at ha
    have habne : a ++ b ≠ [] := by
      cases a with
      | nil => exact absurd rfl hane
      | cons x t => simp
    rw [chunks_cons_of_ne 64 (by omega) _ habne, chunks_cons_of_ne 64 (by omega) a hane]
    rw [List.take_append_of_le_length (by omega), List.drop_append_of_le_length (by omega)]
    rw [ih (a.drop 64) b (by rw [List.length_drop]; omega)]
    simp

/-! ## Incremental MD5 equals one-shot MD5 -/

theorem goodCtx_init : goodCtx [] md5Init := ⟨rfl, rfl, rfl⟩

theorem goodCtx_updByte (msg : List Nat) (s : Md5Ctx) (b : Nat) (h : goodCtx msg s) :
    goodCtx (msg ++ [b]) (md5UpdByte s b) := by
  obtain ⟨hlen, hbuf, hregs⟩ := h
  have hq : 64 * (msg.length / 64) ≤ msg.length := by omega
  have hbuflen : s.buf.length = msg.length % 64 := by
    rw [hbuf, List.length_drop]
    omega
  have hlen1 : (msg ++ [b]).length = msg.length + 1 := by simp
  simp only [md5UpdByte]
  by_cases hr : (s.buf ++ [b]).length = 64
  · rw [if_pos hr]
    have hr63 : msg.length % 64 = 63 := by
      rw [List.length_append] at hr
      simp only [List.length_cons, List.length_nil] at hr
      omega
    refine ⟨by simp [hlen], ?_, ?_⟩
    · rw [hlen1]
      have h64 : 64 * ((msg.length + 1) / 64) = msg.length + 1 := by omega
      rw [h64, ← hlen1, List.drop_length]
    · rw [hlen1]
      have h64 : 64 * ((msg.length + 1) / 64) = msg.length + 1 := by omega
      rw [h64, ← hlen1, List.take_length]
      have hsplit : msg ++ [b] = msg.take (64 * (msg.length / 64)) ++ (s.buf ++ [b]) := by
        rw [hbuf, ← List.append_assoc, List.take_append_drop]
      rw [hsplit, chunks_append_mul (msg.length / 64) _ _
            (by simp [List.length_take]; omega)]
      have hc : chunks 64 (s.buf ++ [b]) = [s.buf ++ [b]] := by
        rw [chunks_cons_of_ne 64 (by omega) _ (by
          intro hx
          rw [hx] at hr
          simp at hr)]
        rw [← hr, List.take_length, List.drop_length]
        rfl
      rw [hc, List.foldl_append, ← hregs]
      rfl
  · rw [if_neg hr]
    have hrlt : msg.length % 64 ≤ 62 := by
      rw [List.length_append] at hr
      simp only [List.length_cons, List.length_nil] at hr
      omega
    have hdiv : (msg.length + 1) / 64 = msg.length / 64 := by omega
    refine ⟨by simp [hlen], ?_, ?_⟩
    · rw [hlen1, hdiv, hbuf, List.drop_append_of_le_length hq]
    · rw [hlen1, hdiv, List.take_append_of_le_length hq, hregs]

theorem goodCtx_update (bs : List Nat) : ∀ (msg : List Nat) (s : Md5Ctx), goodCtx msg s →
    goodCtx (msg ++ bs) (md5Update s bs) := by
  induction bs with
  | nil =>
    intro msg s h
    simpa using h
  | cons x xs ih =>
    intro msg s h
    have h3 := ih (msg ++ [x]) (md5UpdByte s x) (goodCtx_updByte msg s x h)
    rw [show (msg ++ [x]) ++ xs = msg ++ x :: xs by simp] at h3
    exact h3

theorem md5_incremental_eq_ref (bs : List Nat) :
    md5Final (md5Update md5Init bs) = md5Ref bs := by
  have h := goodCtx_update bs [] md5Init goodCtx_init
  rw [List.nil_append] at h
  obtain ⟨hlen, hbuf, hregs⟩ := h
  have htake : (bs.take (64 * (bs.length / 64))).length = 64 * (bs.length / 64) := by
    rw [List.length_take]
    exact Nat.min_eq_left (by omega)
  have hsplit : bs ++ padBytes bs.length =
      bs.take (64 * (bs.length / 64)) ++
        (bs.drop (64 * (bs.length / 64)) ++ padBytes bs.length) := by
    rw [← List.append_assoc, List.take_append_drop]
  have hres : (chunks 64 (bs ++ padBytes bs.length)).foldl processBlock initRegs =
      (chunks 64 (bs.drop (64 * (bs.length / 64)) ++ padBytes bs.length)).foldl processBlock
        ((chunks 64 (bs.take (64 * (bs.length / 64)))).foldl processBlock initRegs) := by
    rw [hsplit, chunks_append_mul (bs.length / 64) _ _ htake, List.foldl_append]
  unfold md5Final md5Ref
  rw [hlen, hbuf, hregs, hres]

theorem md5Update_append (s : Md5Ctx) (x y : List Nat) :
    md5Update s (x ++ y) = md5Update (md5Update s x) y :=
  List.foldl_append _ _ _ _

theorem foldl_md5Update_flatten (rs : List (List Nat)) : ∀ (s : Md5Ctx),
    rs.foldl md5Update s = md5Update s rs.flatten := by
  induction rs with
  | nil => intro s; rfl
  | cons a t ih =>
    intro s
    rw [List.foldl_cons, ih, List.flatten_cons, md5Update_append]

theorem calc_hash_md5_eq_ref (reads : List (List Nat)) (fileSize : Nat) :
    calc_hash_md5 reads fileSize = md5Ref (streamContent reads) := by
  simp only [calc_hash_md5, streamContent]
  rw [foldl_md5Update_flatten, md5_incremental_eq_ref]

theorem length_flatMap_hexByte (l : List Nat) : (l.flatMap hexByte).length = 2 * l.length := by
  induction l with
  | nil => rfl
  | cons a t ih =>
    simp only [List.flatMap_cons, List.length_append, ih, hexByte, List.length_cons,
      List.length_nil, List.length_cons]
    omega

theorem md5HexStr_length (r : Regs) : (md5HexStr r).length = 32 := by
  unfold md5HexStr
  rw [String.length_mk, length_flatMap_hexByte]
  have h16 : (digestBytes r).length = 16 := by simp [digestBytes, le4]
  omega

theorem md5Ref_length (bs : List Nat) : (md5Ref bs).length = 32 :=
  md5HexStr_length _

example : md5Ref [] = "d41d8cd98f00b204e9800998ecf8427e" := by decide

example : md5Ref [97] = "0cc175b9c0f1b6a831c399e269772661" := by decide

example : md5Ref [97, 98, 99] = "900150983cd24fb0d6963f7d28e17f72" := by decide

/-! ## Retry-loop and trace lemmas -/

theorem retryGo_attempts_pos (mk : Nat → List Ev) (script : Nat → Except PyExc α)
    (i f : Nat) (hf : 0 < f) : 0 < (retryGo mk script i f).2.1 := by
  cases f with
  | zero => omega
  | succ f =>
    simp only [retryGo]
    cases hs : script i with
    | error e =>
      simp only []
      split
      · simp
      · split <;> simp
    | ok a => simp

theorem retryGo_trace_blocks (e : Ev) (script : Nat → Except PyExc α) :
    ∀ (f i : Nat),
      (retryGo (fun _ => [Ev.sleep, e]) script i f).2.2 =
        sleepBlocks (retryGo (fun _ => [Ev.sleep, e]) script i f).2.1 e := by
  intro f
  induction f with
  | zero => intro i; rfl
  | succ f ih =>
    intro i
    simp only [retryGo]
    cases hs : script i with
    | error er =>
      simp only []
      split
      · simp only []
        rw [ih (i + 1)]
        rfl
      · split <;> rfl
    | ok a => rfl

theorem putsOf_append (a b : List Ev) : putsOf (a ++ b) = putsOf a ++ putsOf b :=
  List.filterMap_append _ _ _

theorem putsOf_sleepBlocks_get (n : Nat) (k : String) :
    putsOf (sleepBlocks n (Ev.getCall k)) = [] := by
  induction n with
  | zero => rfl
  | succ n ih =>
    simp only [sleepBlocks, putsOf, List.filterMap_cons] at ih ⊢
    exact ih

theorem putsOf_sleepBlocks_put (n : Nat) (k bdy : String) :
    putsOf (sleepBlocks n (Ev.putCall k bdy)) = List.replicate n (k, bdy) := by
  induction n with
  | zero => rfl
  | succ n ih =>
    simp only [sleepBlocks, putsOf, List.filterMap_cons, List.replicate_succ] at ih ⊢
    rw [ih]

theorem headCount_sleepBlocks (n : Nat) (e : Ev) (he : isHeadEv e = false) :
    (sleepBlocks n e).countP isHeadEv = 0 := by
  induction n with
  | zero => rfl
  | succ n ih =>
    show List.countP isHeadEv (Ev.sleep :: e :: sleepBlocks n e) = 0
    rw [List.countP_cons, List.countP_cons, ih, he]
    simp [isHeadEv]

theorem putsOf_rlget (k : String) (script : Nat → Except PyExc GetResp) :
    putsOf (rate_limited_get k script).2.2 = [] := by
  unfold rate_limited_get
  rw [retryGo_trace_blocks]
  exact putsOf_sleepBlocks_get _ _

theorem putsOf_rlput (k bdy : String) (script : Nat → Except PyExc Unit) :
    putsOf (rate_limited_put k bdy script).2.2 =
      List.replicate (rate_limited_put k bdy script).2.1 (k, bdy) := by
  unfold rate_limited_put
  rw [retryGo_trace_blocks]
  exact putsOf_sleepBlocks_put _ _ _

theorem headCount_rlget (k : String) (script : Nat → Except PyExc GetResp) :
    ((rate_limited_get k script).2.2).countP isHeadEv = 0 := by
  unfold rate_limited_get
  rw [retryGo_trace_blocks]
  exact headCount_sleepBlocks _ _ rfl

theorem headCount_rlput (k bdy : String) (script : Nat → Except PyExc Unit) :
    ((rate_limited_put k bdy script).2.2).countP isHeadEv = 0 := by
  unfold rate_limited_put
  rw [retryGo_trace_blocks]
  exact headCount_sleepBlocks _ _ rfl

theorem resultCE_elim {α : Type} {r : Except PyExc α}
    (h : resultIsClientError r = true) : ∃ c, r = .error (.clientError c) := by
  cases r with
  | ok a => simp [resultIsClientError] at h
  | error e =>
    cases e with
    | clientError c => exact ⟨c, rfl⟩
    | otherExc n => simp [resultIsClientError] at h
    | retryError l => simp [resultIsClientError] at h

theorem retryGo_fail4_ok5 {α : Type} (mk : Nat → List Ev) (script : Nat → Except PyExc α)
    (v : α) (h : ∀ i, i < 4 → resultIsClientError (script i) = true)
    (h4 : script 4 = .ok v) :
    (retryGo mk script 0 5).1 = .ok v ∧ (retryGo mk script 0 5).2.1 = 5 := by
  obtain ⟨c0, h0⟩ := resultCE_elim (h 0 (by omega))
  obtain ⟨c1, h1⟩ := resultCE_elim (h 1 (by omega))
  obtain ⟨c2, h2⟩ := resultCE_elim (h 2 (by omega))
  obtain ⟨c3, h3⟩ := resultCE_elim (h 3 (by omega))
  simp [retryGo, h0, h1, h2, h3, h4, isClientError]

theorem retryGo_fail5 {α : Type} (mk : Nat → List Ev) (script : Nat → Except PyExc α)
    (c : String) (h : ∀ i, i < 4 → resultIsClientError (script i) = true)
    (h4 : script 4 = .error (.clientError c)) :
    (retryGo mk script 0 5).1 = .error (.retryError (.clientError c)) ∧
      (retryGo mk script 0 5).2.1 = 5 := by
  obtain ⟨c0, h0⟩ := resultCE_elim (h 0 (by omega))
  obtain ⟨c1, h1⟩ := resultCE_elim (h 1 (by omega))
  obtain ⟨c2, h2⟩ := resultCE_elim (h 2 (by omega))
  obtain ⟨c3, h3⟩ := resultCE_elim (h 3 (by omega))
  simp [retryGo, h0, h1, h2, h3, h4, isClientError]

theorem retryGo_stop_nonCE {α : Type} (mk : Nat → List Ev)
    (script : Nat → Except PyExc α) (e : PyExc) (he : isClientError e = false)
    (h0 : script 0 = .error e) : retryGo mk script 0 5 = (.error e, 1, mk 0) := by
  simp [retryGo, h0, he]

/-! ## Claim theorems -/

/-- C2: for every key whose checksum sibling already exists (the HEAD on
`key + ".md5"` succeeds), `process_file` returns after the single HEAD with the
skipped outcome, performing no GET and no PUT transport call. -/
theorem c2_head_exists_skips (k : String) (b : Behavior) (h : b.headRes = .ok ()) :
    process_file k b = (Outcome.skipped, [Ev.headCall (k ++ ".md5")]) ∧
      ((process_file k b).2).countP isGetEv = 0 ∧
      ((process_file k b).2).countP isPutEv = 0 := by
  have h1 : process_file k b = (Outcome.skipped, [Ev.headCall (k ++ ".md5")]) := by
    simp [process_file, process_file_body, h]
  refine ⟨h1, ?_, ?_⟩ <;> rw [h1] <;> simp [List.countP_cons, isGetEv, isPutEv]

/-- Witness for C2 at a concrete behaviour whose sibling HEAD succeeds. -/
theorem c2_witness :
    process_file "b.dat" c2WitBeh = (Outcome.skipped, [Ev.headCall ("b.dat" ++ ".md5")]) ∧
      ((process_file "b.dat" c2WitBeh).2).countP isGetEv = 0 ∧
      ((process_file "b.dat" c2WitBeh).2).countP isPutEv = 0 :=
  c2_head_exists_skips "b.dat" c2WitBeh rfl

/-- C9: any exception the task body raises — at the HEAD, the GET, the hash or
the PUT — is caught at the task boundary: `process_file` returns normally with
the failed outcome and the events performed so far, and never propagates the
exception. -/
theorem c9_exception_caught (k : String) (b : Behavior) (e : PyExc) (tr : List Ev)
    (h : process_file_body k b = .error (e, tr)) :
    process_file k b = (Outcome.failed, tr) := by
  simp [process_file, h]

/-- Witness for C9 at a behaviour whose HEAD raises a non-`ClientError`. -/
theorem c9_witness :
    process_file "a" c9WitBeh = (Outcome.failed, [Ev.headCall "a.md5"]) :=
  c9_exception_caught "a" c9WitBeh (.otherExc "EndpointConnectionError")
    [Ev.headCall "a.md5"] (by decide)

/-- C10: the digest `calc_hash_md5` returns depends only on the bytes the
stream delivers: two streams with the same delivered content give the same
digest regardless of the `file_size` argument, which only drives the progress
bar. -/
theorem c10_digest_content_only (r1 r2 : List (List Nat)) (s1 s2 : Nat)
    (h : streamContent r1 = streamContent r2) :
    calc_hash_md5 r1 s1 = calc_hash_md5 r2 s2 := by
  rw [calc_hash_md5_eq_ref, calc_hash_md5_eq_ref, h]

/-- Witness for C10: two different chunkings of `"abc"` with different sizes. -/
theorem c10_witness :
    calc_hash_md5 [[97, 98], [99]] 3 = calc_hash_md5 [[97], [98, 99], [], [100]] 999 :=
  c10_digest_content_only _ _ _ _ (by decide)

/-- C8: a key whose lowercased form ends in one of the configured skip
extensions is never yielded by the enumerator, whatever the listing pages and
the key's original letter case. -/
theorem c8_skip_extension_never_yielded (pages : List (List String)) (k : String)
    (h : skipKey k = true) : k ∉ list_files pages := by
  intro hm
  unfold list_files at hm
  have hp := (List.mem_filter.mp hm).2
  rw [h] at hp
  simp at hp

/-- Witness for C8: an upper-case `.mpegindex` key is filtered out. -/
theorem c8_witness :
    "INDEX.MPEGINDEX" ∉ list_files [["INDEX.MPEGINDEX"], ["movie.mov"]] :=
  c8_skip_extension_never_yielded _ _ (by decide)

/-- C7 counterexample: a GET failing with a retryable `ClientError` (HTTP 503)
on all 5 attempts does perform exactly 5 attempts, but what propagates to the
caller is a `tenacity.RetryError` wrapping the last attempt — not the last
`ClientError` itself (`reraise` is unset), refuting the claim's "propagates
the last error to the caller". -/
theorem c7_counterexample :
    (rate_limited_get "k" c7FailScript).1 = .error (.retryError (.clientError "503")) ∧
      (rate_limited_get "k" c7FailScript).2.1 = 5 ∧
      (rate_limited_get "k" c7FailScript).1 ≠ .error (.clientError "503") := by
  refine ⟨?_, ?_, ?_⟩ <;> decide

/-- C7 amended: a wrapped store call failing with a retryable (`ClientError`)
error on attempts 1–4 and succeeding on attempt 5 returns the success after
exactly 5 underlying attempts; a call failing with a retryable error on all 5
attempts performs exactly 5 attempts, and what propagates to the caller is a
`tenacity.RetryError` wrapping the last attempt, not the last error itself. -/
theorem c7_amended_retry_budget :
    (∀ (k : String) (script : Nat → Except PyExc GetResp) (v : GetResp),
        (∀ i, i < 4 → resultIsClientError (script i) = true) → script 4 = .ok v →
        (rate_limited_get k script).1 = .ok v ∧ (rate_limited_get k script).2.1 = 5) ∧
    (∀ (k : String) (script : Nat → Except PyExc GetResp) (c : String),
        (∀ i, i < 4 → resultIsClientError (script i) = true) →
        script 4 = .error (.clientError c) →
        (rate_limited_get k script).1 = .error (.retryError (.clientError c)) ∧
          (rate_limited_get k script).2.1 = 5) ∧
    (∀ (k bdy : String) (script : Nat → Except PyExc Unit),
        (∀ i, i < 4 → resultIsClientError (script i) = true) → script 4 = .ok () →
        (rate_limited_put k bdy script).1 = .ok () ∧
          (rate_limited_put k bdy script).2.1 = 5) ∧
    (∀ (k bdy : String) (script : Nat → Except PyExc Unit) (c : String),
        (∀ i, i < 4 → resultIsClientError (script i) = true) →
        script 4 = .error (.clientError c) →
        (rate_limited_put k bdy script).1 = .error (.retryError (.clientError c)) ∧
          (rate_limited_put k bdy script).2.1 = 5) := by
  refine ⟨?_, ?_, ?_, ?_⟩
  · intro k script v h h4
    exact retryGo_fail4_ok5 _ script v h h4
  · intro k script c h h4
    exact retryGo_fail5 _ script c h h4
  · intro k bdy script h h4
    exact retryGo_fail4_ok5 _ script () h h4
  · intro k bdy script c h h4
    exact retryGo_fail5 _ script c h h4

/-- Witness for the amended C7: throttled four times then success gives 5
attempts and the value; throttled five times gives 5 attempts and the
wrapping `RetryError`. -/
theorem c7_witness :
    ((rate_limited_get "k" c7OkScript).1 = .ok ([[1]], 1) ∧
      (rate_limited_get "k" c7OkScript).2.1 = 5) ∧
    ((rate_limited_get "k" c7FailScript).1 = .error (.retryError (.clientError "503")) ∧
      (rate_limited_get "k" c7FailScript).2.1 = 5) :=
  ⟨c7_amended_retry_budget.1 "k" c7OkScript ([[1]], 1)
      (fun i hi => by simp only [c7OkScript, if_pos hi]; rfl) (by decide),
    c7_amended_retry_budget.2.1 "k" c7FailScript "503"
      (fun _ _ => rfl) (by decide)⟩

/-- C5 counterexample: a GET that keeps failing with not-found (`ClientError`
code 404, a non-retryable kind per the claim) is nevertheless attempted 5
times with a rate-limit sleep before each attempt, and what finally
propagates is a `tenacity.RetryError` wrapping the last attempt — the error
does not propagate after the first attempt. -/
theorem c5_counterexample :
    rate_limited_get "k" g404script =
      (.error (.retryError (.clientError "404")), 5, sleepBlocks 5 (Ev.getCall "k")) := by
  decide

/-- C5 amended: the decorator's classification is by exception type only —
errors that are not botocore `ClientError`s propagate after exactly one
attempt, while every `ClientError` (including not-found, auth failure and
malformed request) is retried up to 5 attempts, after which a
`tenacity.RetryError` wrapping the last attempt is raised. -/
theorem c5_amended_classification :
    (∀ (k : String) (script : Nat → Except PyExc GetResp) (e : PyExc),
        isClientError e = false → script 0 = .error e →
        rate_limited_get k script = (.error e, 1, [Ev.sleep, Ev.getCall k])) ∧
    (∀ (k bdy : String) (script : Nat → Except PyExc Unit) (e : PyExc),
        isClientError e = false → script 0 = .error e →
        rate_limited_put k bdy script = (.error e, 1, [Ev.sleep, Ev.putCall k bdy])) ∧
    (∀ (k : String) (script : Nat → Except PyExc GetResp) (c : String),
        (∀ i, i < 5 → script i = .error (.clientError c)) →
        (rate_limited_get k script).1 = .error (.retryError (.clientError c)) ∧
          (rate_limited_get k script).2.1 = 5) := by
  refine ⟨?_, ?_, ?_⟩
  · intro k script e he h0
    exact retryGo_stop_nonCE _ script e he h0
  · intro k bdy script e he h0
    exact retryGo_stop_nonCE _ script e he h0
  · intro k script c h
    exact retryGo_fail5 _ script c
      (fun i hi => by rw [h i (by omega)]; rfl) (h 4 (by omega))

/-- Witness for the amended C5: a non-`ClientError` connection failure
propagates after a single attempt. -/
theorem c5_witness :
    rate_limited_get "k" c5NonCEScript =
      (.error (.otherExc "ConnectionError"), 1, [Ev.sleep, Ev.getCall "k"]) :=
  c5_amended_classification.1 "k" c5NonCEScript (.otherExc "ConnectionError") rfl rfl

/-- C4 counterexample: the HEAD existence check reaches the transport with no
rate-limiter sleep anywhere in the trace, and a retryable-kind `ClientError`
(HTTP 500) on HEAD produces exactly one HEAD attempt — HEAD is neither
rate-limited nor retried. -/
theorem c4_counterexample :
    process_file "a" c4SkipBeh = (Outcome.skipped, [Ev.headCall "a.md5"]) ∧
      ((process_file "a" c4SkipBeh).2).countP (fun e => e == Ev.sleep) = 0 ∧
      process_file "a" c4Head500Beh = (Outcome.failed, [Ev.headCall "a.md5"]) ∧
      ((process_file "a" c4Head500Beh).2).countP isHeadEv = 1 := by
  refine ⟨?_, ?_, ?_, ?_⟩ <;> decide

/-- C4 amended: GET and PUT each pass through the rate-limiter sleep and the
retry policy — their traces are exactly sleep/transport pairs, one per
attempt — while the HEAD existence check is issued directly: it is the first
event of every task trace and never recurs. -/
theorem c4_amended_rate_limit_paths :
    (∀ (k : String) (script : Nat → Except PyExc GetResp),
        (rate_limited_get k script).2.2 =
          sleepBlocks (rate_limited_get k script).2.1 (Ev.getCall k)) ∧
    (∀ (k bdy : String) (script : Nat → Except PyExc Unit),
        (rate_limited_put k bdy script).2.2 =
          sleepBlocks (rate_limited_put k bdy script).2.1 (Ev.putCall k bdy)) ∧
    (∀ (k : String) (b : Behavior), ∃ rest,
        (process_file k b).2 = Ev.headCall (k ++ ".md5") :: rest ∧
          rest.countP isHeadEv = 0) := by
  refine ⟨?_, ?_, ?_⟩
  · intro k script
    exact retryGo_trace_blocks (Ev.getCall k) script 5 0
  · intro k bdy script
    exact retryGo_trace_blocks (Ev.putCall k bdy) script 5 0
  · intro k b
    cases hh : b.headRes with
    | ok u =>
      exact ⟨[], by simp [process_file, process_file_body, hh], by simp⟩
    | error e =>
      cases e with
      | otherExc n =>
        exact ⟨[], by simp [process_file, process_file_body, hh], by simp⟩
      | retryError l =>
        exact ⟨[], by simp [process_file, process_file_body, hh], by simp⟩
      | clientError code =>
        by_cases hcode : code = "404"
        · subst hcode
          cases hg : (rate_limited_get k b.getScript).1 with
          | error e1 =>
            exact ⟨(rate_limited_get k b.getScript).2.2,
              by simp [process_file, process_file_body, hh, hg], headCount_rlget _ _⟩
          | ok resp =>
            cases hp : (rate_limited_put (k ++ ".md5")
                (calc_hash_md5 resp.1 resp.2 ++ "  " ++ k ++ "\n") b.putScript).1 with
            | error e2 =>
              refine ⟨(rate_limited_get k b.getScript).2.2 ++
                  (rate_limited_put (k ++ ".md5")
                    (calc_hash_md5 resp.1 resp.2 ++ "  " ++ k ++ "\n") b.putScript).2.2,
                ?_, ?_⟩
              · simp [process_file, process_file_body, hh, hg, hp]
              · rw [List.countP_append, headCount_rlget, headCount_rlput]
            | ok u =>
              refine ⟨(rate_limited_get k b.getScript).2.2 ++
                  (rate_limited_put (k ++ ".md5")
                    (calc_hash_md5 resp.1 resp.2 ++ "  " ++ k ++ "\n") b.putScript).2.2,
                ?_, ?_⟩
              · simp [process_file, process_file_body, hh, hg, hp]
              · rw [List.countP_append, headCount_rlget, headCount_rlput]
        · exact ⟨[], by simp [process_file, process_file_body, hh, hcode], by simp⟩

/-- Witness for the amended C4 on a behaviour exercising the GET path. -/
theorem c4_witness :
    ∃ rest, (process_file "a" c4WitBeh).2 = Ev.headCall ("a" ++ ".md5") :: rest ∧
      rest.countP isHeadEv = 0 :=
  c4_amended_rate_limit_paths.2.2 "a" c4WitBeh

/-- C1: when a task succeeds, every PUT attempt it makes writes the sibling key
`key + ".md5"` with body `digest ++ "  " ++ key ++ "\n"`, where the digest is
the 32-character hex MD5 that the one-shot reference implementation produces
on the full content delivered by the GET stream. -/
theorem c1_success_record (k : String) (b : Behavior) (reads : List (List Nat))
    (size : Nat) (hget : (rate_limited_get k b.getScript).1 = .ok (reads, size))
    (hs : (process_file k b).1 = Outcome.succeeded) :
    ∃ m, 0 < m ∧
      putsOf (process_file k b).2 =
        List.replicate m (k ++ ".md5", md5Ref (streamContent reads) ++ "  " ++ k ++ "\n") ∧
      (md5Ref (streamContent reads)).length = 32 := by
  cases hb : process_file_body k b with
  | error p =>
    obtain ⟨e, tr⟩ := p
    have hpf : process_file k b = (Outcome.failed, tr) := by simp [process_file, hb]
    rw [hpf] at hs
    simp at hs
  | ok r =>
    obtain ⟨o, tr⟩ := r
    have hpf : process_file k b = (o, tr) := by simp [process_file, hb]
    rw [hpf] at hs ⊢
    cases hh : b.headRes with
    | ok u =>
      simp only [process_file_body, hh] at hb
      simp only [Except.ok.injEq, Prod.mk.injEq] at hb
      obtain ⟨ho, htr⟩ := hb
      rw [← ho] at hs
      simp at hs
    | error e =>
      cases e with
      | otherExc n =>
        simp only [process_file_body, hh] at hb
        exact Except.noConfusion hb
      | retryError l =>
        simp only [process_file_body, hh] at hb
        exact Except.noConfusion hb
      | clientError code =>
        by_cases hcode : code = "404"
        · subst hcode
          simp only [process_file_body, hh, hget, reduceIte] at hb
          cases hp : (rate_limited_put (k ++ ".md5")
              (calc_hash_md5 reads size ++ "  " ++ k ++ "\n") b.putScript).1 with
          | error e2 =>
            simp only [hp] at hb
            exact Except.noConfusion hb
          | ok u =>
            simp only [hp, Except.ok.injEq, Prod.mk.injEq] at hb
            obtain ⟨ho, htr⟩ := hb
            subst htr
            refine ⟨(rate_limited_put (k ++ ".md5")
                (calc_hash_md5 reads size ++ "  " ++ k ++ "\n") b.putScript).2.1,
              ?_, ?_, md5Ref_length _⟩
            · unfold rate_limited_put
              exact retryGo_attempts_pos _ _ _ _ (by omega)
            · have hsplit : putsOf (Ev.headCall (k ++ ".md5") ::
                  ((rate_limited_get k b.getScript).2.2 ++
                    (rate_limited_put (k ++ ".md5")
                      (calc_hash_md5 reads size ++ "  " ++ k ++ "\n") b.putScript).2.2)) =
                  putsOf (rate_limited_get k b.getScript).2.2 ++
                    putsOf (rate_limited_put (k ++ ".md5")
                      (calc_hash_md5 reads size ++ "  " ++ k ++ "\n") b.putScript).2.2 :=
                putsOf_append _ _
              rw [hsplit, putsOf_rlget, putsOf_rlput, List.nil_append,
                calc_hash_md5_eq_ref]
        · simp only [process_file_body, hh, hcode, if_false] at hb
          simp at hb

/-- Witness for C1 at a concrete fresh object with content `"a"`. -/
theorem c1_witness :
    ∃ m, 0 < m ∧
      putsOf (process_file "a.dat" c1WitBeh).2 =
        List.replicate m ("a.dat" ++ ".md5",
          md5Ref (streamContent [[97]]) ++ "  " ++ "a.dat" ++ "\n") ∧
      (md5Ref (streamContent [[97]])).length = 32 :=
  c1_success_record "a.dat" c1WitBeh [[97]] 1 (by decide) (by decide)

/-- C3 (code bug): the tool is not idempotent.  Over the one-object bucket
`store0`, the first run writes `a.dat.md5`; the second run over the unchanged
content enumerates `a.dat.md5` too (`.md5` is not in `SKIP_EXTENSIONS`), finds
no `a.dat.md5.md5`, and performs one PUT instead of zero. -/
theorem c3_second_run_not_idempotent :
    (runOnce store0).2 = 1 ∧
      containsKey (runOnce store0).1 "a.dat.md5" = true ∧
      (runOnce (runOnce store0).1).2 = 1 ∧
      containsKey (runOnce (runOnce store0).1).1 "a.dat.md5.md5" = true := by
  refine ⟨?_, ?_, ?_, ?_⟩ <;> decide
